import Mathlib

/-!
Verification development for the producer-consumer system (Assignment 1).

The definitions below are a shallow embedding of the Python modules
shared_buffer.py, producer.py, consumer.py and system.py.  The bounded
buffer is modelled as a record.  A blocking call that may observe state
changes made by other threads while it waits is modelled by passing the
finite list of buffer states observed at its successive wakeups; for a
call made with a finite timeout, exhausting that list corresponds to the
timeout elapsing (the Python code returns the timed-out result then).
The multithreaded system as a whole is modelled further below as a
small-step transition relation on a global state, with one step per
lock-protected critical section of the Python code.
-/

/-- Error value for SharedBuffer operations.  valueError models the
Python ValueError raised by task_done and by the constructor; the spec
calls it InvariantViolation.  The QueueClosed exception is modelled by
dedicated result constructors of the individual operations. -/
inductive BufErr where
  | valueError
deriving DecidableEq

/-- State of shared_buffer.SharedBuffer: the deque _q, the bound _max,
the counter _unfinished_tasks and the flag _closed. -/
structure SharedBuffer (α : Type) where
  q : List α
  max : Nat
  unfinished : Nat
  closed : Bool
deriving DecidableEq

namespace SharedBuffer

variable {α : Type}

/-- SharedBuffer.__init__: rejects a non-positive max_size and starts
with an empty queue, a zero task counter and the closed flag unset. -/
def make (α : Type) (max_size : Int) : Except BufErr (SharedBuffer α) :=
  if max_size ≤ 0 then .error .valueError
  else .ok { q := [], max := max_size.toNat, unfinished := 0, closed := false }

/-- The predicate can_put defined inside SharedBuffer.put: the buffer is
not closed and there is room in the queue. -/
def canPut (s : SharedBuffer α) : Bool :=
  !s.closed && decide (s.q.length < s.max)

/-- The predicate can_get defined inside SharedBuffer.get: an item is
available, or the buffer is closed and empty (so get must raise instead
of waiting). -/
def canGet (s : SharedBuffer α) : Bool :=
  (s.closed && s.q.isEmpty) || !s.q.isEmpty

/-- SharedBuffer._wait_until with a finite timeout.  The predicate is
checked on the state at call time and then once per wakeup; wakes lists
the buffer states observed at the successive wakeups, and exhausting it
corresponds to the timeout elapsing (Python returns False; here none). -/
def waitUntil (pred : SharedBuffer α → Bool) (s : SharedBuffer α) :
    List (SharedBuffer α) → Option (SharedBuffer α)
  | [] => if pred s then some s else none
  | d :: rest => if pred s then some s else waitUntil pred d rest

/-- Result of SharedBuffer.put: True (with the updated buffer), False on
timeout, or the QueueClosed exception. -/
inductive PutResult (α : Type) where
  | enqueued (s : SharedBuffer α)
  | timedOut
  | closed
deriving DecidableEq

/-- Effect of a successful enqueue inside put: append the item and
increment _unfinished_tasks. -/
def putAppend (s : SharedBuffer α) (item : α) : SharedBuffer α :=
  { s with q := s.q ++ [item], unfinished := s.unfinished + 1 }

/-- SharedBuffer.put with a finite timeout.  Raises QueueClosed when the
buffer is closed at call time; otherwise enqueues immediately when
can_put holds, and else waits; a timed-out wait returns False.  The
check of _closed after a successful wait is kept from the source even
though can_put already implies the buffer is not closed there. -/
def put (s : SharedBuffer α) (item : α) (wakes : List (SharedBuffer α)) :
    PutResult α :=
  if s.closed then .closed
  else if canPut s then .enqueued (putAppend s item)
  else
    match waitUntil canPut s wakes with
    | none => .timedOut
    | some d => if d.closed then .closed else .enqueued (putAppend d item)

/-- Result of SharedBuffer.get: an item (with the updated buffer), None
on timeout, or the QueueClosed exception. -/
inductive GetResult (α : Type) where
  | got (x : α) (s : SharedBuffer α)
  | timedOut
  | closed
deriving DecidableEq

/-- SharedBuffer.get with a finite timeout.  Waits for can_get; a
timed-out wait returns None.  Once can_get holds at a state d, the
source raises QueueClosed when d is closed and empty, and otherwise pops
the oldest item; since can_get forces d to be closed whenever its queue
is empty, the empty branch below is exactly the raise branch. -/
def get (s : SharedBuffer α) (wakes : List (SharedBuffer α)) : GetResult α :=
  match waitUntil canGet s wakes with
  | none => .timedOut
  | some d =>
    match d.q with
    | [] => .closed
    | x :: rest => .got x { d with q := rest }

/-- SharedBuffer.task_done: raises ValueError when _unfinished_tasks is
already non-positive, otherwise decrements it. -/
def task_done (s : SharedBuffer α) : Except BufErr (SharedBuffer α) :=
  if s.unfinished ≤ 0 then .error .valueError
  else .ok { s with unfinished := s.unfinished - 1 }

/-- Outcome of SharedBuffer.join, which has no timeout: drained when the
wait on _unfinished_tasks == 0 has succeeded, blocked when the call has
not returned after the listed wakeups. -/
inductive JoinOutcome where
  | drained
  | blocked
deriving DecidableEq

/-- SharedBuffer.join: wait (without timeout) until _unfinished_tasks
drops to zero.  The wakes list gives the buffer states observed at the
successive wakeups of the condition variable. -/
def join (s : SharedBuffer α) (wakes : List (SharedBuffer α)) : JoinOutcome :=
  match waitUntil (fun d => d.unfinished == 0) s wakes with
  | some _ => .drained
  | none => .blocked

/-- SharedBuffer.close: a one-shot transition of _closed to True (the
notifications only wake waiting threads and change no state). -/
def close (s : SharedBuffer α) : SharedBuffer α :=
  { s with closed := true }

/-- SharedBuffer.size: the current queue length. -/
def size (s : SharedBuffer α) : Nat := s.q.length

theorem waitUntil_some {pred : SharedBuffer α → Bool} {d : SharedBuffer α} :
    ∀ {s : SharedBuffer α} {wakes : List (SharedBuffer α)},
      waitUntil pred s wakes = some d → (d = s ∨ d ∈ wakes) ∧ pred d = true := by
  intro s wakes
  induction wakes generalizing s with
  | nil =>
    intro h
    by_cases hp : pred s = true
    · simp [waitUntil, hp] at h
      subst h
      exact ⟨Or.inl rfl, hp⟩
    · simp [waitUntil, hp] at h
  | cons a rest ih =>
    intro h
    by_cases hp : pred s = true
    · simp [waitUntil, hp] at h
      subst h
      exact ⟨Or.inl rfl, hp⟩
    · simp [waitUntil, hp] at h
      rcases ih h with ⟨hm, hpred⟩
      refine ⟨?_, hpred⟩
      rcases hm with hm | hm
      · exact Or.inr (by simp [hm])
      · exact Or.inr (by simp [hm])

theorem waitUntil_none {pred : SharedBuffer α → Bool} :
    ∀ {s : SharedBuffer α} {wakes : List (SharedBuffer α)},
      waitUntil pred s wakes = none → pred s = false := by
  intro s wakes h
  by_cases hp : pred s = true
  · cases wakes <;> simp [waitUntil, hp] at h
  · simpa using hp

theorem put_enqueued {s s' : SharedBuffer α} {item : α}
    {wakes : List (SharedBuffer α)} (h : put s item wakes = .enqueued s') :
    ∃ d, (d = s ∨ d ∈ wakes) ∧ canPut d = true ∧ s' = putAppend d item := by
  unfold put at h
  by_cases hc : s.closed
  · simp [hc] at h
  · simp [hc] at h
    by_cases hp : canPut s = true
    · simp [hp] at h
      exact ⟨s, Or.inl rfl, hp, h.symm⟩
    · simp [hp] at h
      rcases hw : waitUntil canPut s wakes with _ | d
      · rw [hw] at h; simp at h
      · rw [hw] at h
        rcases waitUntil_some hw with ⟨hm, hpred⟩
        by_cases hdc : d.closed
        · simp [hdc] at h
        · simp [hdc] at h
          exact ⟨d, hm, hpred, h.symm⟩

theorem put_nil_enqueued {s s' : SharedBuffer α} {item : α}
    (h : put s item [] = .enqueued s') :
    canPut s = true ∧ s' = putAppend s item := by
  rcases put_enqueued h with ⟨d, hm, hp, he⟩
  rcases hm with hm | hm
  · subst hm; exact ⟨hp, he⟩
  · simp at hm

theorem get_closed_of {s : SharedBuffer α} {wakes : List (SharedBuffer α)}
    (h : get s wakes = .closed) :
    ∃ d, (d = s ∨ d ∈ wakes) ∧ d.closed = true ∧ d.q = [] := by
  unfold get at h
  rcases hw : waitUntil canGet s wakes with _ | d
  · rw [hw] at h; simp at h
  · rw [hw] at h
    rcases waitUntil_some hw with ⟨hm, hpred⟩
    rcases hq : d.q with _ | ⟨x, rest⟩
    · refine ⟨d, hm, ?_, hq⟩
      unfold canGet at hpred
      simp [hq] at hpred
      exact hpred
    · simp [hq] at h

theorem get_nil_got {s s' : SharedBuffer α} {x : α}
    (h : get s [] = .got x s') :
    s.q = x :: s'.q ∧ s'.max = s.max ∧ s'.unfinished = s.unfinished ∧
      s'.closed = s.closed := by
  unfold get at h
  by_cases hp : canGet s = true
  · simp [waitUntil, hp] at h
    rcases hq : s.q with _ | ⟨y, rest⟩
    · rw [hq] at h; simp at h
    · rw [hq] at h
      simp at h
      rcases h with ⟨hx, hs⟩
      subst hx
      subst hs
      simp [hq]
  · simp [waitUntil, hp] at h

theorem task_done_ok {s s' : SharedBuffer α}
    (h : task_done s = .ok s') :
    s.unfinished = s'.unfinished + 1 ∧ s'.q = s.q ∧ s'.max = s.max ∧
      s'.closed = s.closed := by
  unfold task_done at h
  by_cases hz : s.unfinished ≤ 0
  · simp [hz] at h
  · simp [hz] at h
    subst h
    simp
    omega

end SharedBuffer

/-!
Buffer-level reachability.  Every mutation of the shared buffer made by
any thread happens inside one lock-protected critical section and is the
effect of one of put (at the state where can_put held), get (at the
state where an item was popped), task_done or close; so the set of
states a buffer can ever be in is the closure of the construction state
under these four atomic effects.  A put or get that acts only after
waiting acts at a wake state, which is itself produced by the other
threads and hence reachable; its effect is the immediate (empty wakes)
effect at that state.
-/

/-- One atomic mutation of the shared buffer. -/
inductive BufStep {α : Type} : SharedBuffer α → SharedBuffer α → Prop where
  | put {s s' : SharedBuffer α} (item : α) :
      SharedBuffer.put s item [] = .enqueued s' → BufStep s s'
  | get {s s' : SharedBuffer α} (x : α) :
      SharedBuffer.get s [] = .got x s' → BufStep s s'
  | taskDone {s s' : SharedBuffer α} :
      SharedBuffer.task_done s = .ok s' → BufStep s s'
  | close {s : SharedBuffer α} : BufStep s (SharedBuffer.close s)

/-- States reachable from a buffer constructed with max_size m. -/
inductive BufReachable {α : Type} (m : Int) : SharedBuffer α → Prop where
  | init (s : SharedBuffer α) : SharedBuffer.make α m = .ok s → BufReachable m s
  | step {s s' : SharedBuffer α} :
      BufReachable m s → BufStep s s' → BufReachable m s'

theorem bufStep_max {α : Type} {s s' : SharedBuffer α} (h : BufStep s s') :
    s'.max = s.max := by
  cases h with
  | put item hp =>
    rcases SharedBuffer.put_nil_enqueued hp with ⟨-, he⟩
    subst he
    rfl
  | get x hg => exact (SharedBuffer.get_nil_got hg).2.1
  | taskDone ht => exact (SharedBuffer.task_done_ok ht).2.2.1
  | close => rfl

theorem bufReachable_size_le {α : Type} {m : Int} {s : SharedBuffer α}
    (h : BufReachable m s) : s.q.length ≤ s.max := by
  induction h with
  | init s hs =>
    unfold SharedBuffer.make at hs
    by_cases hm : m ≤ 0
    · simp [hm] at hs
    · simp [hm] at hs
      subst hs
      simp
  | step hr hstep ih =>
    rename_i s s'
    cases hstep with
    | put item hp =>
      rcases SharedBuffer.put_nil_enqueued hp with ⟨hc, he⟩
      have hlt : s.q.length < s.max := by
        unfold SharedBuffer.canPut at hc
        simp at hc
        exact hc.2
      subst he
      simp [SharedBuffer.putAppend]
      omega
    | get x hg =>
      rcases SharedBuffer.get_nil_got hg with ⟨hq, hmax2, -, -⟩
      rw [hmax2]
      have : s'.q.length + 1 = s.q.length := by rw [hq]; simp
      omega
    | taskDone ht =>
      rcases SharedBuffer.task_done_ok ht with ⟨-, hq, hmax2, -⟩
      rw [hq, hmax2]
      exact ih
    | close => simpa [SharedBuffer.close] using ih

/-!
System-level model.  Items travelling through the buffer are modelled as
Python objects with an identity (the ident field, modelling the result
of the id function, used by the operator is) and a value (the val field,
used by the operator ==).  Consumer.POISON_PILL is one fixed object and
None is another; Python guarantees no other object shares their
identity, so every other ident denotes a real item.
-/

/-- A Python object as seen by the consumer loop: ident models object
identity (the operator is), val models the value compared by ==. -/
structure PyObj where
  ident : Nat
  val : Int
deriving DecidableEq

/-- The process-wide sentinel Consumer.POISON_PILL = object(). -/
def pillObj : PyObj := { ident := 0, val := 0 }

/-- The Python singleton None, which get also returns on timeout. -/
def noneObj : PyObj := { ident := 1, val := 0 }

/-- Python value equality (==) between two of these objects. -/
def pyEq (a b : PyObj) : Bool := a.val == b.val

/-- What Consumer.run does with one value returned by get, in source
order: an is-None check first (continue without task_done), then an
is-POISON_PILL check (task_done and break), else process the item
(append to the destination, count it, task_done). -/
inductive HandleAction where
  | skip
  | finish
  | process
deriving DecidableEq

/-- The dispatch on the item at the top of the consumer loop, using
object identity exactly as the source does. -/
def consumerDispatch (x : PyObj) : HandleAction :=
  if x.ident == noneObj.ident then .skip
  else if x.ident == pillObj.ident then .finish
  else .process

/-- The value the caller of SharedBuffer.get receives: the popped object,
or the None object when the call timed out, or nothing at all when
QueueClosed was raised.  A popped None item and a timeout are therefore
indistinguishable to the caller. -/
def getReturnValue : SharedBuffer.GetResult PyObj → Option PyObj
  | .got x _ => some x
  | .timedOut => some noneObj
  | .closed => none

/-- Per-thread state of a Producer: the unread suffix of its source list
and its items_produced counter.  The thread has finished exactly when
remaining is empty (stop_event is never set during a graceful run). -/
structure ProdState where
  remaining : List PyObj
  produced : Nat
deriving DecidableEq

/-- Where a consumer thread is inside its loop: idle (about to call
get), holding an item just popped, acking (the item was appended and
counted, task_done not yet called), or finished (it broke out after a
poison pill). -/
inductive ConsPhase where
  | idle
  | holding (x : PyObj)
  | acking
  | finished
deriving DecidableEq

/-- Per-thread state of a Consumer: its loop position and its
items_consumed counter. -/
structure ConsState where
  phase : ConsPhase
  consumed : Nat
deriving DecidableEq

/-- Where the orchestrator is inside shutdown_gracefully: waiting for
producers to finish, in the first join, sending poison pills (k sent so
far), in the second join, waiting for consumers to finish, done. -/
inductive OrchPhase where
  | waitProds
  | drain1
  | pills (k : Nat)
  | drain2
  | waitCons
  | done
deriving DecidableEq

/-- Global state of the running system: the shared buffer, every worker
thread, the shared destination list, the orchestrator position, and two
history counters (pillsSent counts the poison pills enqueued by the
orchestrator, skipped counts the real None items a consumer popped and
then ignored without task_done). -/
structure SysState where
  buf : SharedBuffer PyObj
  prods : List ProdState
  conss : List ConsState
  dest : List PyObj
  oph : OrchPhase
  pillsSent : Nat
  skipped : Nat
deriving DecidableEq

/-- One interleaved step of the system.  Worker steps pick one thread
(the list surgery pre ++ w :: post); each step is one lock-protected
critical section of the source.  Buffer effects are expressed through
the embedded buffer operations acting at the current state: a blocking
call that only succeeds later acts at that later reachable state, and
the retry loops of Producer.run and shutdown_gracefully simply mean the
corresponding step does not fire until it can. -/
inductive SysStep : SysState → SysState → Prop where
  | prodPut (s : SysState) (pre post : List ProdState) (x : PyObj)
      (rest : List PyObj) (c : Nat) (b' : SharedBuffer PyObj) :
      s.prods = pre ++ { remaining := x :: rest, produced := c } :: post →
      SharedBuffer.put s.buf x [] = .enqueued b' →
      SysStep s { s with
        buf := b',
        prods := pre ++ { remaining := rest, produced := c + 1 } :: post }
  | consPop (s : SysState) (pre post : List ConsState) (c : Nat)
      (x : PyObj) (b' : SharedBuffer PyObj) :
      s.conss = pre ++ { phase := .idle, consumed := c } :: post →
      SharedBuffer.get s.buf [] = .got x b' →
      SysStep s { s with
        buf := b',
        conss := pre ++ { phase := .holding x, consumed := c } :: post }
  | consSkipNone (s : SysState) (pre post : List ConsState) (c : Nat)
      (x : PyObj) :
      s.conss = pre ++ { phase := .holding x, consumed := c } :: post →
      consumerDispatch x = .skip →
      SysStep s { s with
        conss := pre ++ { phase := .idle, consumed := c } :: post,
        skipped := s.skipped + 1 }
  | consProcess (s : SysState) (pre post : List ConsState) (c : Nat)
      (x : PyObj) :
      s.conss = pre ++ { phase := .holding x, consumed := c } :: post →
      consumerDispatch x = .process →
      SysStep s { s with
        conss := pre ++ { phase := .acking, consumed := c + 1 } :: post,
        dest := s.dest ++ [x] }
  | consAck (s : SysState) (pre post : List ConsState) (c : Nat)
      (b' : SharedBuffer PyObj) :
      s.conss = pre ++ { phase := .acking, consumed := c } :: post →
      SharedBuffer.task_done s.buf = .ok b' →
      SysStep s { s with
        buf := b',
        conss := pre ++ { phase := .idle, consumed := c } :: post }
  | consPillAck (s : SysState) (pre post : List ConsState) (c : Nat)
      (x : PyObj) (b' : SharedBuffer PyObj) :
      s.conss = pre ++ { phase := .holding x, consumed := c } :: post →
      consumerDispatch x = .finish →
      SharedBuffer.task_done s.buf = .ok b' →
      SysStep s { s with
        buf := b',
        conss := pre ++ { phase := .finished, consumed := c } :: post }
  | oJoinProds (s : SysState) :
      s.oph = .waitProds →
      (∀ p ∈ s.prods, p.remaining = []) →
      SysStep s { s with oph := .drain1 }
  | oDrain1 (s : SysState) :
      s.oph = .drain1 →
      s.buf.unfinished = 0 →
      SysStep s { s with oph := .pills 0 }
  | oPill (s : SysState) (k : Nat) (b' : SharedBuffer PyObj) :
      s.oph = .pills k →
      k < s.conss.length →
      SharedBuffer.put s.buf pillObj [] = .enqueued b' →
      SysStep s { s with
        buf := b',
        oph := .pills (k + 1),
        pillsSent := s.pillsSent + 1 }
  | oPillsDone (s : SysState) (k : Nat) :
      s.oph = .pills k →
      k = s.conss.length →
      SysStep s { s with oph := .drain2 }
  | oDrain2 (s : SysState) :
      s.oph = .drain2 →
      s.buf.unfinished = 0 →
      SysStep s { s with oph := .waitCons }
  | oJoinCons (s : SysState) :
      s.oph = .waitCons →
      (∀ c ∈ s.conss, c.phase = .finished) →
      SysStep s { s with oph := .done }

/-- The state right after construction and start: an empty buffer of the
given capacity, one producer per source with nothing produced yet, nc
consumers at the top of their loops, an empty destination, and the
orchestrator entering shutdown_gracefully (whose first action, waiting
for the producers, is a no-op until they finish). -/
def initSys (cap : Nat) (sources : List (List PyObj)) (nc : Nat) : SysState :=
  { buf := { q := [], max := cap, unfinished := 0, closed := false },
    prods := sources.map (fun src => { remaining := src, produced := 0 }),
    conss := List.replicate nc { phase := .idle, consumed := 0 },
    dest := [],
    oph := .waitProds,
    pillsSent := 0,
    skipped := 0 }

/-- States reachable by some interleaving of the whole system. -/
inductive SysReachable (cap : Nat) (sources : List (List PyObj)) (nc : Nat) :
    SysState → Prop where
  | init : SysReachable cap sources nc (initSys cap sources nc)
  | step {s s' : SysState} :
      SysReachable cap sources nc s → SysStep s s' →
      SysReachable cap sources nc s'

/-- Aggregated statistics, as computed by get_statistics. -/
structure Stats where
  num_producers : Nat
  num_consumers : Nat
  total_produced : Nat
  total_consumed : Nat
  buffer_size : Nat
  items_in_transit : Int
deriving DecidableEq

/-- Sum of items_produced over the producers. -/
def totProduced (l : List ProdState) : Nat := (l.map (fun p => p.produced)).sum

/-- Sum of items_consumed over the consumers. -/
def totConsumed (l : List ConsState) : Nat := (l.map (fun c => c.consumed)).sum

/-- ProducerConsumerSystem.get_statistics. -/
def getStatistics (s : SysState) : Stats :=
  { num_producers := s.prods.length,
    num_consumers := s.conss.length,
    total_produced := totProduced s.prods,
    total_consumed := totConsumed s.conss,
    buffer_size := SharedBuffer.size s.buf,
    items_in_transit := (totProduced s.prods : Int) - (totConsumed s.conss : Int) }

/-- 1 when the consumer holds an item removed from the queue but not yet
acknowledged with task_done. -/
def heldB : ConsPhase → Nat
  | .holding _ => 1
  | .acking => 1
  | _ => 0

/-- 1 when the consumer has finished (broke out on a poison pill). -/
def finB : ConsPhase → Nat
  | .finished => 1
  | _ => 0

/-- 1 when the consumer has counted its current item but has not yet
called task_done for it. -/
def ackB : ConsPhase → Nat
  | .acking => 1
  | _ => 0

def totHeld (l : List ConsState) : Nat := (l.map (fun c => heldB c.phase)).sum

def totFin (l : List ConsState) : Nat := (l.map (fun c => finB c.phase)).sum

def totAcking (l : List ConsState) : Nat := (l.map (fun c => ackB c.phase)).sum

@[simp] theorem totProduced_nil : totProduced [] = 0 := rfl

@[simp] theorem totProduced_cons (p : ProdState) (l : List ProdState) :
    totProduced (p :: l) = p.produced + totProduced l := by
  simp [totProduced]

@[simp] theorem totProduced_append (a b : List ProdState) :
    totProduced (a ++ b) = totProduced a + totProduced b := by
  simp [totProduced]

@[simp] theorem totConsumed_nil : totConsumed [] = 0 := rfl

@[simp] theorem totConsumed_cons (c : ConsState) (l : List ConsState) :
    totConsumed (c :: l) = c.consumed + totConsumed l := by
  simp [totConsumed]

@[simp] theorem totConsumed_append (a b : List ConsState) :
    totConsumed (a ++ b) = totConsumed a + totConsumed b := by
  simp [totConsumed]

@[simp] theorem totHeld_nil : totHeld [] = 0 := rfl

@[simp] theorem totHeld_cons (c : ConsState) (l : List ConsState) :
    totHeld (c :: l) = heldB c.phase + totHeld l := by
  simp [totHeld]

@[simp] theorem totHeld_append (a b : List ConsState) :
    totHeld (a ++ b) = totHeld a + totHeld b := by
  simp [totHeld]

@[simp] theorem totFin_nil : totFin [] = 0 := rfl

@[simp] theorem totFin_cons (c : ConsState) (l : List ConsState) :
    totFin (c :: l) = finB c.phase + totFin l := by
  simp [totFin]

@[simp] theorem totFin_append (a b : List ConsState) :
    totFin (a ++ b) = totFin a + totFin b := by
  simp [totFin]

@[simp] theorem totAcking_nil : totAcking [] = 0 := rfl

@[simp] theorem totAcking_cons (c : ConsState) (l : List ConsState) :
    totAcking (c :: l) = ackB c.phase + totAcking l := by
  simp [totAcking]

@[simp] theorem totAcking_append (a b : List ConsState) :
    totAcking (a ++ b) = totAcking a + totAcking b := by
  simp [totAcking]

/-- The inductive invariant of the interleaved system.  count balances
every put against every task_done; bound says the unacknowledged count
covers the queue, the items being processed and the skipped None items;
the remaining fields pin down what each orchestrator phase has already
established. -/
structure SysInv (s : SysState) : Prop where
  count : s.buf.unfinished + totConsumed s.conss + totFin s.conss =
    totProduced s.prods + s.pillsSent + totAcking s.conss
  bound : s.buf.q.length + totHeld s.conss + s.skipped ≤ s.buf.unfinished
  prodsDone : s.oph ≠ .waitProds → ∀ p ∈ s.prods, p.remaining = []
  pillsStart : s.oph = .waitProds ∨ s.oph = .drain1 → s.pillsSent = 0
  pillsAt : ∀ k, s.oph = .pills k → s.pillsSent = k ∧ k ≤ s.conss.length
  pillsEnd : s.oph = .drain2 ∨ s.oph = .waitCons ∨ s.oph = .done →
    s.pillsSent = s.conss.length
  quiesced : s.oph = .waitCons ∨ s.oph = .done → s.buf.unfinished = 0
  consDone : s.oph = .done → ∀ c ∈ s.conss, c.phase = .finished

theorem totProduced_fresh (sources : List (List PyObj)) :
    totProduced (sources.map
      (fun src => { remaining := src, produced := 0 })) = 0 := by
  induction sources with
  | nil => rfl
  | cons a l ih => simpa using ih

theorem sysInv_init (cap : Nat) (sources : List (List PyObj)) (nc : Nat) :
    SysInv (initSys cap sources nc) := by
  refine ⟨?_, ?_, ?_, ?_, ?_, ?_, ?_, ?_⟩ <;>
    simp [initSys, totConsumed, totFin, totAcking, totHeld,
      totProduced_fresh, finB, ackB, heldB]

theorem mem_middle {β : Type} (pre post : List β) (w : β) :
    w ∈ pre ++ w :: post := by simp

/-- A producer can still hold an unread item only while the orchestrator
is waiting for the producers. -/
theorem active_prod_waitProds {s : SysState} (hs : SysInv s)
    {pre post : List ProdState} {x : PyObj} {rest : List PyObj} {c : Nat}
    (hps : s.prods = pre ++ { remaining := x :: rest, produced := c } :: post) :
    s.oph = .waitProds := by
  by_contra h
  have := hs.prodsDone h { remaining := x :: rest, produced := c }
    (by rw [hps]; exact mem_middle _ _ _)
  simp at this


theorem sysInv_step {s s' : SysState} (hs : SysInv s) (h : SysStep s s') :
    SysInv s' := by
  cases h with
  | prodPut pre post x rest c b' hps hput =>
    rcases SharedBuffer.put_nil_enqueued hput with ⟨-, hb⟩
    subst hb
    have hw := active_prod_waitProds hs hps
    have hcount := hs.count
    have hbound := hs.bound
    rw [hps] at hcount
    simp at hcount
    refine ⟨?_, ?_, ?_, ?_, ?_, ?_, ?_, ?_⟩
    · simp [SharedBuffer.putAppend]
      omega
    · simp [SharedBuffer.putAppend]
      omega
    · intro hne
      simp at hne
      exact absurd hw hne
    · intro _
      simpa using hs.pillsStart (Or.inl hw)
    · intro k hk
      simp [hw] at hk
    · intro ho
      simp [hw] at ho
    · intro ho
      simp [hw] at ho
    · intro ho
      simp [hw] at ho
  | consPop pre post c x b' hcs hget =>
    rcases SharedBuffer.get_nil_got hget with ⟨hq, hmax, hunf, hcl⟩
    have hlen : s.buf.q.length = b'.q.length + 1 := by rw [hq]; simp
    have hcount := hs.count
    have hbound := hs.bound
    rw [hcs] at hcount hbound
    simp [heldB, finB, ackB] at hcount hbound
    have hnw : ¬(s.oph = .waitCons ∨ s.oph = .done) := by
      intro ho
      have h0 := hs.quiesced ho
      omega
    refine ⟨?_, ?_, ?_, ?_, ?_, ?_, ?_, ?_⟩
    · simp [heldB, finB, ackB]
      omega
    · simp [heldB, finB, ackB]
      omega
    · intro hne
      simp at hne
      exact fun p hp => hs.prodsDone hne p (by simpa using hp)
    · intro ho
      simp at ho
      simpa using hs.pillsStart ho
    · intro k hk
      simp at hk
      have hpk := hs.pillsAt k hk
      rw [hcs] at hpk
      simpa using hpk
    · intro ho
      simp at ho
      have hpe := hs.pillsEnd ho
      rw [hcs] at hpe
      simpa using hpe
    · intro ho
      simp at ho
      exact absurd ho hnw
    · intro ho
      simp at ho
      exact absurd (Or.inr ho) hnw
  | consSkipNone pre post c x hcs hd =>
    have hcount := hs.count
    have hbound := hs.bound
    rw [hcs] at hcount hbound
    simp [heldB, finB, ackB] at hcount hbound
    have hnw : ¬(s.oph = .waitCons ∨ s.oph = .done) := by
      intro ho
      have h0 := hs.quiesced ho
      omega
    refine ⟨?_, ?_, ?_, ?_, ?_, ?_, ?_, ?_⟩
    · simp [heldB, finB, ackB]
      omega
    · simp [heldB, finB, ackB]
      omega
    · intro hne
      simp at hne
      exact fun p hp => hs.prodsDone hne p (by simpa using hp)
    · intro ho
      simp at ho
      simpa using hs.pillsStart ho
    · intro k hk
      simp at hk
      have hpk := hs.pillsAt k hk
      rw [hcs] at hpk
      simpa using hpk
    · intro ho
      simp at ho
      have hpe := hs.pillsEnd ho
      rw [hcs] at hpe
      simpa using hpe
    · intro ho
      simp at ho
      exact absurd ho hnw
    · intro ho
      simp at ho
      exact absurd (Or.inr ho) hnw
  | consProcess pre post c x hcs hd =>
    have hcount := hs.count
    have hbound := hs.bound
    rw [hcs] at hcount hbound
    simp [heldB, finB, ackB] at hcount hbound
    have hnw : ¬(s.oph = .waitCons ∨ s.oph = .done) := by
      intro ho
      have h0 := hs.quiesced ho
      omega
    refine ⟨?_, ?_, ?_, ?_, ?_, ?_, ?_, ?_⟩
    · simp [heldB, finB, ackB]
      omega
    · simp [heldB, finB, ackB]
      omega
    · intro hne
      simp at hne
      exact fun p hp => hs.prodsDone hne p (by simpa using hp)
    · intro ho
      simp at ho
      simpa using hs.pillsStart ho
    · intro k hk
      simp at hk
      have hpk := hs.pillsAt k hk
      rw [hcs] at hpk
      simpa using hpk
    · intro ho
      simp at ho
      have hpe := hs.pillsEnd ho
      rw [hcs] at hpe
      simpa using hpe
    · intro ho
      simp at ho
      exact absurd ho hnw
    · intro ho
      simp at ho
      exact absurd (Or.inr ho) hnw
  | consAck pre post c b' hcs htd =>
    rcases SharedBuffer.task_done_ok htd with ⟨hunf, hq, hmax, hcl⟩
    have hcount := hs.count
    have hbound := hs.bound
    rw [hcs] at hcount hbound
    simp [heldB, finB, ackB] at hcount hbound
    have hnw : ¬(s.oph = .waitCons ∨ s.oph = .done) := by
      intro ho
      have h0 := hs.quiesced ho
      omega
    refine ⟨?_, ?_, ?_, ?_, ?_, ?_, ?_, ?_⟩
    · simp [heldB, finB, ackB]
      omega
    · simp [heldB, finB, ackB]
      rw [hq]
      omega
    · intro hne
      simp at hne
      exact fun p hp => hs.prodsDone hne p (by simpa using hp)
    · intro ho
      simp at ho
      simpa using hs.pillsStart ho
    · intro k hk
      simp at hk
      have hpk := hs.pillsAt k hk
      rw [hcs] at hpk
      simpa using hpk
    · intro ho
      simp at ho
      have hpe := hs.pillsEnd ho
      rw [hcs] at hpe
      simpa using hpe
    · intro ho
      simp at ho
      exact absurd ho hnw
    · intro ho
      simp at ho
      exact absurd (Or.inr ho) hnw
  | consPillAck pre post c x b' hcs hd htd =>
    rcases SharedBuffer.task_done_ok htd with ⟨hunf, hq, hmax, hcl⟩
    have hcount := hs.count
    have hbound := hs.bound
    rw [hcs] at hcount hbound
    simp [heldB, finB, ackB] at hcount hbound
    have hnw : ¬(s.oph = .waitCons ∨ s.oph = .done) := by
      intro ho
      have h0 := hs.quiesced ho
      omega
    refine ⟨?_, ?_, ?_, ?_, ?_, ?_, ?_, ?_⟩
    · simp [heldB, finB, ackB]
      omega
    · simp [heldB, finB, ackB]
      rw [hq]
      omega
    · intro hne
      simp at hne
      exact fun p hp => hs.prodsDone hne p (by simpa using hp)
    · intro ho
      simp at ho
      simpa using hs.pillsStart ho
    · intro k hk
      simp at hk
      have hpk := hs.pillsAt k hk
      rw [hcs] at hpk
      simpa using hpk
    · intro ho
      simp at ho
      have hpe := hs.pillsEnd ho
      rw [hcs] at hpe
      simpa using hpe
    · intro ho
      simp at ho
      exact absurd ho hnw
    · intro ho
      simp at ho
      exact absurd (Or.inr ho) hnw
  | oJoinProds ho hall =>
    refine ⟨?_, ?_, ?_, ?_, ?_, ?_, ?_, ?_⟩
    · simpa using hs.count
    · simpa using hs.bound
    · intro _ p hp
      simp at hp
      exact hall p hp
    · intro _
      simpa using hs.pillsStart (Or.inl ho)
    · intro k hk
      simp at hk
    · intro hd
      simp at hd
    · intro hd
      simp at hd
    · intro hd
      simp at hd
  | oDrain1 ho h0 =>
    refine ⟨?_, ?_, ?_, ?_, ?_, ?_, ?_, ?_⟩
    · simpa using hs.count
    · simpa using hs.bound
    · intro _ p hp
      simp at hp
      exact hs.prodsDone (by rw [ho]; simp) p hp
    · intro hd
      simp at hd
    · intro k hk
      simp at hk
      have hp0 := hs.pillsStart (Or.inr ho)
      simp
      omega
    · intro hd
      simp at hd
    · intro hd
      simp at hd
    · intro hd
      simp at hd
  | oPill k b' ho hk hput =>
    rcases SharedBuffer.put_nil_enqueued hput with ⟨-, hb⟩
    subst hb
    have hpk := hs.pillsAt k ho
    have hcount := hs.count
    have hbound := hs.bound
    refine ⟨?_, ?_, ?_, ?_, ?_, ?_, ?_, ?_⟩
    · simp [SharedBuffer.putAppend]
      omega
    · simp [SharedBuffer.putAppend]
      omega
    · intro _ p hp
      simp at hp
      exact hs.prodsDone (by rw [ho]; simp) p hp
    · intro hd
      simp at hd
    · intro j hj
      simp at hj
      simp
      omega
    · intro hd
      simp at hd
    · intro hd
      simp at hd
    · intro hd
      simp at hd
  | oPillsDone k ho hkeq =>
    have hpk := hs.pillsAt k ho
    refine ⟨?_, ?_, ?_, ?_, ?_, ?_, ?_, ?_⟩
    · simpa using hs.count
    · simpa using hs.bound
    · intro _ p hp
      simp at hp
      exact hs.prodsDone (by rw [ho]; simp) p hp
    · intro hd
      simp at hd
    · intro j hj
      simp at hj
    · intro _
      simp
      omega
    · intro hd
      simp at hd
    · intro hd
      simp at hd
  | oDrain2 ho h0 =>
    refine ⟨?_, ?_, ?_, ?_, ?_, ?_, ?_, ?_⟩
    · simpa using hs.count
    · simpa using hs.bound
    · intro _ p hp
      simp at hp
      exact hs.prodsDone (by rw [ho]; simp) p hp
    · intro hd
      simp at hd
    · intro j hj
      simp at hj
    · intro _
      simpa using hs.pillsEnd (Or.inl ho)
    · intro _
      simpa using h0
    · intro hd
      simp at hd
  | oJoinCons ho hall =>
    refine ⟨?_, ?_, ?_, ?_, ?_, ?_, ?_, ?_⟩
    · simpa using hs.count
    · simpa using hs.bound
    · intro _ p hp
      simp at hp
      exact hs.prodsDone (by rw [ho]; simp) p hp
    · intro hd
      simp at hd
    · intro j hj
      simp at hj
    · intro _
      simpa using hs.pillsEnd (Or.inr (Or.inl ho))
    · intro _
      simpa using hs.quiesced (Or.inl ho)
    · intro _ cc hc
      simp at hc
      exact hall cc hc

theorem sysReachable_inv {cap : Nat} {sources : List (List PyObj)} {nc : Nat}
    {s : SysState} (h : SysReachable cap sources nc s) : SysInv s := by
  induction h with
  | init => exact sysInv_init cap sources nc
  | step hr hstep ih => exact sysInv_step ih hstep

theorem totAcking_le_totHeld (l : List ConsState) : totAcking l ≤ totHeld l := by
  induction l with
  | nil => simp
  | cons a t ih =>
    have ha : ackB a.phase ≤ heldB a.phase := by
      cases a.phase <;> simp [ackB, heldB]
    simp only [totAcking_cons, totHeld_cons]
    omega

theorem totFin_all_finished {l : List ConsState}
    (h : ∀ c ∈ l, c.phase = .finished) : totFin l = l.length := by
  induction l with
  | nil => simp
  | cons a t ih =>
    have ha := h a (by simp)
    have ih2 := ih (fun c hc => h c (by simp [hc]))
    simp [ha, finB]
    omega

/-- C1: for every configuration of producers and consumers with finite
sources, in any interleaving in which shutdown_gracefully has completed
(the orchestrator reached its final position), the statistics satisfy
total_produced = total_consumed, items_in_transit = 0 and
buffer_size = 0: no produced item is lost. -/
theorem c1_graceful_shutdown_no_loss (cap : Nat) (sources : List (List PyObj))
    (nc : Nat) (s : SysState) (hr : SysReachable cap sources nc s)
    (hdone : s.oph = .done) :
    (getStatistics s).total_produced = (getStatistics s).total_consumed ∧
    (getStatistics s).items_in_transit = 0 ∧
    (getStatistics s).buffer_size = 0 := by
  have hinv := sysReachable_inv hr
  have h0 := hinv.quiesced (Or.inr hdone)
  have hb := hinv.bound
  have hc := hinv.count
  have hfin := totFin_all_finished (hinv.consDone hdone)
  have hpe := hinv.pillsEnd (Or.inr (Or.inr hdone))
  have hack := totAcking_le_totHeld s.conss
  refine ⟨?_, ?_, ?_⟩
  · show totProduced s.prods = totConsumed s.conss
    omega
  · show (totProduced s.prods : Int) - (totConsumed s.conss : Int) = 0
    omega
  · show s.buf.q.length = 0
    omega

/-- A real item used in the concrete runs below: object identity 2,
value 5. -/
def xObj : PyObj := { ident := 2, val := 5 }

/-- A concrete complete run: capacity 2, one producer with one item, one
consumer.  The states exS0 to exS12 trace one full interleaving from
startup to completed graceful shutdown. -/
def exS0 : SysState := initSys 2 [[xObj]] 1

def exS1 : SysState :=
  { buf := { q := [xObj], max := 2, unfinished := 1, closed := false },
    prods := [{ remaining := [], produced := 1 }],
    conss := [{ phase := .idle, consumed := 0 }],
    dest := [], oph := .waitProds, pillsSent := 0, skipped := 0 }

def exS2 : SysState := { exS1 with oph := .drain1 }

def exS3 : SysState :=
  { exS2 with
    buf := { q := [], max := 2, unfinished := 1, closed := false },
    conss := [{ phase := .holding xObj, consumed := 0 }] }

def exS4 : SysState :=
  { exS3 with
    conss := [{ phase := .acking, consumed := 1 }],
    dest := [xObj] }

def exS5 : SysState :=
  { exS4 with
    buf := { q := [], max := 2, unfinished := 0, closed := false },
    conss := [{ phase := .idle, consumed := 1 }] }

def exS6 : SysState := { exS5 with oph := .pills 0 }

def exS7 : SysState :=
  { exS6 with
    buf := { q := [pillObj], max := 2, unfinished := 1, closed := false },
    oph := .pills 1, pillsSent := 1 }

def exS8 : SysState := { exS7 with oph := .drain2 }

def exS9 : SysState :=
  { exS8 with
    buf := { q := [], max := 2, unfinished := 1, closed := false },
    conss := [{ phase := .holding pillObj, consumed := 1 }] }

def exS10 : SysState :=
  { exS9 with
    buf := { q := [], max := 2, unfinished := 0, closed := false },
    conss := [{ phase := .finished, consumed := 1 }] }

def exS11 : SysState := { exS10 with oph := .waitCons }

def exS12 : SysState := { exS11 with oph := .done }

theorem exReach0 : SysReachable 2 [[xObj]] 1 exS0 := .init

theorem exReach1 : SysReachable 2 [[xObj]] 1 exS1 :=
  exReach0.step (SysStep.prodPut exS0 [] [] xObj [] 0
    { q := [xObj], max := 2, unfinished := 1, closed := false }
    (by decide) (by decide))

theorem exReach2 : SysReachable 2 [[xObj]] 1 exS2 :=
  exReach1.step (SysStep.oJoinProds exS1 (by decide) (by decide))

theorem exReach3 : SysReachable 2 [[xObj]] 1 exS3 :=
  exReach2.step (SysStep.consPop exS2 [] [] 0 xObj
    { q := [], max := 2, unfinished := 1, closed := false }
    (by decide) (by decide))

theorem exReach4 : SysReachable 2 [[xObj]] 1 exS4 :=
  exReach3.step (SysStep.consProcess exS3 [] [] 0 xObj (by decide) (by decide))

theorem exReach5 : SysReachable 2 [[xObj]] 1 exS5 :=
  exReach4.step (SysStep.consAck exS4 [] [] 1
    { q := [], max := 2, unfinished := 0, closed := false }
    (by decide) rfl)

theorem exReach6 : SysReachable 2 [[xObj]] 1 exS6 :=
  exReach5.step (SysStep.oDrain1 exS5 (by decide) (by decide))

theorem exReach7 : SysReachable 2 [[xObj]] 1 exS7 :=
  exReach6.step (SysStep.oPill exS6 0
    { q := [pillObj], max := 2, unfinished := 1, closed := false }
    (by decide) (by decide) (by decide))

theorem exReach8 : SysReachable 2 [[xObj]] 1 exS8 :=
  exReach7.step (SysStep.oPillsDone exS7 1 (by decide) (by decide))

theorem exReach9 : SysReachable 2 [[xObj]] 1 exS9 :=
  exReach8.step (SysStep.consPop exS8 [] [] 1 pillObj
    { q := [], max := 2, unfinished := 1, closed := false }
    (by decide) (by decide))

theorem exReach10 : SysReachable 2 [[xObj]] 1 exS10 :=
  exReach9.step (SysStep.consPillAck exS9 [] [] 1 pillObj
    { q := [], max := 2, unfinished := 0, closed := false }
    (by decide) (by decide) rfl)

theorem exReach11 : SysReachable 2 [[xObj]] 1 exS11 :=
  exReach10.step (SysStep.oDrain2 exS10 (by decide) (by decide))

theorem exReach12 : SysReachable 2 [[xObj]] 1 exS12 :=
  exReach11.step (SysStep.oJoinCons exS11 (by decide) (by decide))

/-- Witness for C1: the theorem applied to the concrete completed run
above (one producer with one item, one consumer, capacity 2). -/
theorem c1_graceful_shutdown_no_loss_witness :
    (getStatistics exS12).total_produced = (getStatistics exS12).total_consumed ∧
    (getStatistics exS12).items_in_transit = 0 ∧
    (getStatistics exS12).buffer_size = 0 :=
  c1_graceful_shutdown_no_loss 2 [[xObj]] 1 exS12 exReach12 (by decide)

/-- C8: the graceful-shutdown protocol.  (1) While the orchestrator is
sending poison pills every producer has already finished, exactly k
pills have been enqueued so far and never more than one per registered
consumer; (2) at completion exactly one pill per consumer was enqueued;
(3) a successful pill enqueue appends the pill and increments the
outstanding counter by one; (4) the consumer recognizes the pill and
acknowledges it; (5) that acknowledgment (task_done) decrements the
outstanding counter by one; (6) the only exits from the waitProds,
drain1, drain2 and waitCons positions are, in order: to drain1 once all
producers are finished, to the pill loop once the outstanding count is
zero, to waitCons once the outstanding count is zero again, and to done
once every consumer is finished. -/
theorem c8_shutdown_protocol :
    (∀ (cap : Nat) (sources : List (List PyObj)) (nc : Nat) (s : SysState)
      (k : Nat), SysReachable cap sources nc s → s.oph = .pills k →
        (∀ p ∈ s.prods, p.remaining = []) ∧ s.pillsSent = k ∧
          k ≤ s.conss.length) ∧
    (∀ (cap : Nat) (sources : List (List PyObj)) (nc : Nat) (s : SysState),
      SysReachable cap sources nc s → s.oph = .done →
        s.pillsSent = s.conss.length) ∧
    (∀ (b b' : SharedBuffer PyObj),
      SharedBuffer.put b pillObj [] = .enqueued b' →
        b'.unfinished = b.unfinished + 1 ∧ b'.q = b.q ++ [pillObj]) ∧
    consumerDispatch pillObj = .finish ∧
    (∀ (b b' : SharedBuffer PyObj), SharedBuffer.task_done b = .ok b' →
      b'.unfinished + 1 = b.unfinished) ∧
    (∀ (s s' : SysState), SysStep s s' →
      (s.oph = .waitProds → s'.oph ≠ .waitProds →
        (∀ p ∈ s.prods, p.remaining = []) ∧ s'.oph = .drain1) ∧
      (s.oph = .drain1 → s'.oph ≠ .drain1 →
        s.buf.unfinished = 0 ∧ s'.oph = .pills 0) ∧
      (s.oph = .drain2 → s'.oph ≠ .drain2 →
        s.buf.unfinished = 0 ∧ s'.oph = .waitCons) ∧
      (s.oph = .waitCons → s'.oph ≠ .waitCons →
        (∀ c ∈ s.conss, c.phase = .finished) ∧ s'.oph = .done)) := by
  refine ⟨?_, ?_, ?_, ?_, ?_, ?_⟩
  · intro cap sources nc s k hr hp
    have hinv := sysReachable_inv hr
    exact ⟨hinv.prodsDone (by rw [hp]; simp), (hinv.pillsAt k hp).1,
      (hinv.pillsAt k hp).2⟩
  · intro cap sources nc s hr hd
    exact (sysReachable_inv hr).pillsEnd (Or.inr (Or.inr hd))
  · intro b b' h
    rcases SharedBuffer.put_nil_enqueued h with ⟨-, hb⟩
    subst hb
    exact ⟨rfl, rfl⟩
  · rfl
  · intro b b' h
    exact (SharedBuffer.task_done_ok h).1.symm
  · intro s s' hstep
    cases hstep with
    | prodPut pre post x rest c b' hps hput =>
      refine ⟨?_, ?_, ?_, ?_⟩ <;>
        · intro h1 h2
          simp at h2
          exact absurd h1 h2
    | consPop pre post c x b' hcs hget =>
      refine ⟨?_, ?_, ?_, ?_⟩ <;>
        · intro h1 h2
          simp at h2
          exact absurd h1 h2
    | consSkipNone pre post c x hcs hd =>
      refine ⟨?_, ?_, ?_, ?_⟩ <;>
        · intro h1 h2
          simp at h2
          exact absurd h1 h2
    | consProcess pre post c x hcs hd =>
      refine ⟨?_, ?_, ?_, ?_⟩ <;>
        · intro h1 h2
          simp at h2
          exact absurd h1 h2
    | consAck pre post c b' hcs htd =>
      refine ⟨?_, ?_, ?_, ?_⟩ <;>
        · intro h1 h2
          simp at h2
          exact absurd h1 h2
    | consPillAck pre post c x b' hcs hd htd =>
      refine ⟨?_, ?_, ?_, ?_⟩ <;>
        · intro h1 h2
          simp at h2
          exact absurd h1 h2
    | oJoinProds ho hall =>
      refine ⟨?_, ?_, ?_, ?_⟩
      · intro h1 h2
        exact ⟨hall, by simp⟩
      · intro h1 h2
        simp [ho] at h1
      · intro h1 h2
        simp [ho] at h1
      · intro h1 h2
        simp [ho] at h1
    | oDrain1 ho h0 =>
      refine ⟨?_, ?_, ?_, ?_⟩
      · intro h1 h2
        simp [ho] at h1
      · intro h1 h2
        exact ⟨h0, by simp⟩
      · intro h1 h2
        simp [ho] at h1
      · intro h1 h2
        simp [ho] at h1
    | oPill k b' ho hk hput =>
      refine ⟨?_, ?_, ?_, ?_⟩ <;>
        · intro h1 h2
          simp [ho] at h1
    | oPillsDone k ho hkeq =>
      refine ⟨?_, ?_, ?_, ?_⟩ <;>
        · intro h1 h2
          simp [ho] at h1
    | oDrain2 ho h0 =>
      refine ⟨?_, ?_, ?_, ?_⟩
      · intro h1 h2
        simp [ho] at h1
      · intro h1 h2
        simp [ho] at h1
      · intro h1 h2
        exact ⟨h0, by simp⟩
      · intro h1 h2
        simp [ho] at h1
    | oJoinCons ho hall =>
      refine ⟨?_, ?_, ?_, ?_⟩
      · intro h1 h2
        simp [ho] at h1
      · intro h1 h2
        simp [ho] at h1
      · intro h1 h2
        simp [ho] at h1
      · intro h1 h2
        exact ⟨hall, by simp⟩

/-- Witness for C8, at the concrete run above: in state exS7 the
orchestrator is mid-pill-loop with one pill sent and the producer
finished; the theorem parts are applied at that state and at concrete
buffers. -/
theorem c8_shutdown_protocol_witness :
    ((∀ p ∈ exS7.prods, p.remaining = []) ∧ exS7.pillsSent = 1 ∧
      1 ≤ exS7.conss.length) ∧
    exS12.pillsSent = exS12.conss.length ∧
    consumerDispatch pillObj = .finish :=
  ⟨c8_shutdown_protocol.1 2 [[xObj]] 1 exS7 1 exReach7 (by decide),
   c8_shutdown_protocol.2.1 2 [[xObj]] 1 exS12 exReach12 (by decide),
   c8_shutdown_protocol.2.2.2.1⟩

/-- C3: get fails with QueueClosed exactly when the buffer is closed and
the queue is empty at the state where the call acts: a call on a closed
empty buffer raises immediately; a call on a closed non-empty buffer
still pops and returns the oldest item; and whenever get raises, the
state it acted on (the call-time state or one observed at a wakeup) was
closed with an empty queue. -/
theorem c3_get_closed_semantics (α : Type) (s : SharedBuffer α)
    (wakes : List (SharedBuffer α)) :
    (s.closed = true → s.q = [] → SharedBuffer.get s wakes = .closed) ∧
    (∀ (x : α) (rest : List α), s.closed = true → s.q = x :: rest →
      SharedBuffer.get s wakes = .got x { s with q := rest }) ∧
    (SharedBuffer.get s wakes = .closed →
      ∃ d, (d = s ∨ d ∈ wakes) ∧ d.closed = true ∧ d.q = []) := by
  refine ⟨?_, ?_, ?_⟩
  · intro hc hq
    have hcg : SharedBuffer.canGet s = true := by
      simp [SharedBuffer.canGet, hc, hq]
    unfold SharedBuffer.get
    cases wakes <;> simp [SharedBuffer.waitUntil, hcg, hq]
  · intro x rest hc hq
    have hcg : SharedBuffer.canGet s = true := by
      simp [SharedBuffer.canGet, hq]
    unfold SharedBuffer.get
    cases wakes <;> simp [SharedBuffer.waitUntil, hcg, hq]
  · exact SharedBuffer.get_closed_of

/-- Witness for C3 at concrete buffers: a closed empty buffer raises; a
closed buffer holding 7 still yields 7. -/
theorem c3_get_closed_semantics_witness :
    SharedBuffer.get
      ({ q := [], max := 1, unfinished := 0, closed := true } :
        SharedBuffer Int) [] = .closed ∧
    SharedBuffer.get
      ({ q := [7], max := 1, unfinished := 1, closed := true } :
        SharedBuffer Int) [] =
      .got 7 { q := [], max := 1, unfinished := 1, closed := true } :=
  ⟨(c3_get_closed_semantics Int
      { q := [], max := 1, unfinished := 0, closed := true } []).1 rfl rfl,
   (c3_get_closed_semantics Int
      { q := [7], max := 1, unfinished := 1, closed := true } []).2.1
      7 [] rfl rfl⟩

/-- C4: task_done raises the invariant-violation error (ValueError) when
the outstanding count is already zero, producing no new state; when the
count is positive it decrements it by exactly one and does not fail. -/
theorem c4_task_done_semantics (α : Type) (s : SharedBuffer α) :
    (s.unfinished = 0 → SharedBuffer.task_done s = .error .valueError) ∧
    (0 < s.unfinished → SharedBuffer.task_done s =
      .ok { s with unfinished := s.unfinished - 1 }) := by
  constructor
  · intro h
    simp [SharedBuffer.task_done, h]
  · intro h
    have hn : ¬ s.unfinished ≤ 0 := by omega
    simp [SharedBuffer.task_done, hn]

/-- Witness for C4 at concrete buffers: with zero outstanding the call
errors, with two outstanding it decrements to one. -/
theorem c4_task_done_semantics_witness :
    SharedBuffer.task_done
      ({ q := [], max := 1, unfinished := 0, closed := false } :
        SharedBuffer Int) = .error .valueError ∧
    SharedBuffer.task_done
      ({ q := [], max := 1, unfinished := 2, closed := false } :
        SharedBuffer Int) =
      .ok { q := [], max := 1, unfinished := 1, closed := false } :=
  ⟨(c4_task_done_semantics Int
      { q := [], max := 1, unfinished := 0, closed := false }).1 rfl,
   (c4_task_done_semantics Int
      { q := [], max := 1, unfinished := 2, closed := false }).2 (by decide)⟩

/-- C5: the capacity invariant.  Construction rejects a non-positive
max_size; every reachable buffer state keeps size at most max (size is a
Nat, so 0 is a lower bound by type); and put enqueues only at a state
whose queue length is strictly below the bound (and not closed). -/
theorem c5_capacity_invariant (α : Type) (m : Int) (s : SharedBuffer α) :
    (m ≤ 0 → SharedBuffer.make α m = .error .valueError) ∧
    (BufReachable m s → SharedBuffer.size s ≤ s.max) ∧
    (∀ (item : α) (wakes : List (SharedBuffer α)) (s' : SharedBuffer α),
      SharedBuffer.put s item wakes = .enqueued s' →
        ∃ d, (d = s ∨ d ∈ wakes) ∧ d.q.length < d.max ∧ d.closed = false ∧
          s' = SharedBuffer.putAppend d item) := by
  refine ⟨?_, ?_, ?_⟩
  · intro h
    simp [SharedBuffer.make, h]
  · intro h
    exact bufReachable_size_le h
  · intro item wakes s' h
    rcases SharedBuffer.put_enqueued h with ⟨d, hm, hp, he⟩
    unfold SharedBuffer.canPut at hp
    simp at hp
    exact ⟨d, hm, hp.2, hp.1, he⟩

/-- A concrete buffer reachable from construction with max_size 2 by one
successful put. -/
def c5buf : SharedBuffer Int :=
  { q := [7], max := 2, unfinished := 1, closed := false }

theorem c5buf_reachable : BufReachable 2 c5buf := by
  refine BufReachable.step
    (BufReachable.init
      { q := [], max := 2, unfinished := 0, closed := false } ?_)
    (BufStep.put 7 (by decide))
  rfl

/-- Witness for C5: construction with max_size -1 errors, and the
reachable buffer above satisfies the size bound. -/
theorem c5_capacity_invariant_witness :
    SharedBuffer.make Int (-1) = .error .valueError ∧
    SharedBuffer.size c5buf ≤ c5buf.max :=
  ⟨(c5_capacity_invariant Int (-1) c5buf).1 (by decide),
   (c5_capacity_invariant Int 2 c5buf).2.1 c5buf_reachable⟩

theorem SharedBuffer.waitUntil_none_of {α : Type}
    {pred : SharedBuffer α → Bool} :
    ∀ {s : SharedBuffer α} {wakes : List (SharedBuffer α)},
      pred s = false → (∀ w ∈ wakes, pred w = false) →
        SharedBuffer.waitUntil pred s wakes = none := by
  intro s wakes
  induction wakes generalizing s with
  | nil =>
    intro h1 h2
    simp [SharedBuffer.waitUntil, h1]
  | cons a rest ih =>
    intro h1 h2
    simp [SharedBuffer.waitUntil, h1]
    exact ih (h2 a (by simp)) (fun w hw => h2 w (by simp [hw]))

/-- C6 counterexample: the exact situation of the claim, a channel that
was closed while one item is still outstanding.  join does not fail with
QueueClosed (its outcome type has no such case at all, mirroring the
source, whose join touches only _unfinished_tasks): even after being
woken by close it is still blocked. -/
theorem c6_join_counterexample :
    SharedBuffer.join
      ({ q := [], max := 1, unfinished := 1, closed := true } :
        SharedBuffer Int)
      [{ q := [], max := 1, unfinished := 1, closed := true }] =
      .blocked := rfl

/-- C6 amended: join never raises QueueClosed.  Its outcome is entirely
independent of the closed flag, and while the outstanding count stays
positive (at call time and at every wakeup) it simply remains blocked,
even on a closed channel. -/
theorem c6_join_ignores_closed (α : Type) (s : SharedBuffer α)
    (wakes : List (SharedBuffer α)) (b : Bool) :
    SharedBuffer.join { s with closed := b } wakes =
      SharedBuffer.join s wakes ∧
    (s.unfinished ≠ 0 → (∀ w ∈ wakes, w.unfinished ≠ 0) →
      SharedBuffer.join s wakes = .blocked) := by
  constructor
  · cases wakes with
    | nil =>
      by_cases h : s.unfinished = 0 <;>
        simp [SharedBuffer.join, SharedBuffer.waitUntil, h]
    | cons a rest =>
      by_cases h : s.unfinished = 0 <;>
        simp [SharedBuffer.join, SharedBuffer.waitUntil, h]
  · intro h0 hw
    have hnone : SharedBuffer.waitUntil
        (fun d => d.unfinished == 0) s wakes = none := by
      refine SharedBuffer.waitUntil_none_of (by simpa using h0) ?_
      intro w hmem
      simpa using hw w hmem
    simp [SharedBuffer.join, hnone]

/-- Witness for C6: the amended theorem applied at a concrete closed
buffer with one outstanding item and no qualifying wakeup. -/
theorem c6_join_ignores_closed_witness :
    SharedBuffer.join
      ({ q := [], max := 1, unfinished := 1, closed := true } :
        SharedBuffer Int) [] = .blocked :=
  (c6_join_ignores_closed Int
    { q := [], max := 1, unfinished := 1, closed := true } [] true).2
    (by decide) (by simp)

/-- C2 evaluated at the failing input: put on a full open buffer of
capacity 1, with the buffer becoming closed at the one wakeup the
0.5-second timeout allows.  The call returns the boolean timeout result
False (timedOut) instead of failing with QueueClosed, although both the
spec and the docstring of put promise the error when the buffer was
closed while waiting; the post-wait closed check in the source is
unreachable because can_put already excludes a closed buffer. -/
theorem c2_put_closed_while_waiting_times_out :
    SharedBuffer.put
      ({ q := [7], max := 1, unfinished := 1, closed := false } :
        SharedBuffer Int) 9
      [{ q := [7], max := 1, unfinished := 1, closed := true }] =
      .timedOut ∧
    (SharedBuffer.PutResult.timedOut : SharedBuffer.PutResult Int) ≠
      .closed := ⟨rfl, by decide⟩

/-- A worker thread handle as the orchestrator holds it: whether start()
has been invoked on it. -/
structure WorkerHandle where
  started : Bool
deriving DecidableEq

/-- Registration state of ProducerConsumerSystem: its lists of producer
and consumer threads (construction starts with both empty). -/
structure PCSystem where
  producers : List WorkerHandle
  consumers : List WorkerHandle
deriving DecidableEq

/-- ProducerConsumerSystem.add_producer: constructs a Producer thread
and appends it to the list.  The source performs no lifecycle check. -/
def add_producer (sys : PCSystem) : PCSystem :=
  { sys with producers := sys.producers ++ [{ started := false }] }

/-- ProducerConsumerSystem.add_consumer: constructs a Consumer thread
and appends it to the list.  The source performs no lifecycle check. -/
def add_consumer (sys : PCSystem) : PCSystem :=
  { sys with consumers := sys.consumers ++ [{ started := false }] }

/-- ProducerConsumerSystem.start: starts every registered consumer, then
every registered producer. -/
def startSystem (sys : PCSystem) : PCSystem :=
  { producers := sys.producers.map (fun _ => { started := true }),
    consumers := sys.consumers.map (fun _ => { started := true }) }

/-- C7 counterexample: on a system on which start() has already been
invoked (one consumer registered and started), add_producer does not
reject the call: it silently registers one new, unstarted producer. -/
theorem c7_add_after_start_counterexample :
    (add_producer (startSystem
      (add_consumer { producers := [], consumers := [] }))).producers =
      [{ started := false }] ∧
    (add_producer (startSystem
      (add_consumer { producers := [], consumers := [] }))).producers.length =
      (startSystem
        (add_consumer { producers := [], consumers := [] })).producers.length
        + 1 := by
  decide

/-- C7 amended: add_producer and add_consumer perform no lifecycle check
at all: in every state, including any state reached after start() has
been invoked, each appends one new worker and rejects nothing. -/
theorem c7_add_unconditional (sys : PCSystem) :
    (add_producer sys).producers = sys.producers ++ [{ started := false }] ∧
    (add_producer sys).consumers = sys.consumers ∧
    (add_consumer sys).consumers = sys.consumers ++ [{ started := false }] ∧
    (add_consumer sys).producers = sys.producers ∧
    (add_producer (startSystem sys)).producers =
      (startSystem sys).producers ++ [{ started := false }] ∧
    (add_consumer (startSystem sys)).consumers =
      (startSystem sys).consumers ++ [{ started := false }] :=
  ⟨rfl, rfl, rfl, rfl, rfl, rfl⟩

/-- Witness for C7 amended, at a concrete started system. -/
theorem c7_add_unconditional_witness :
    (add_producer (startSystem
      { producers := [], consumers := [{ started := false }] })).producers =
      [{ started := false }] := by
  have h := (c7_add_unconditional
    { producers := [], consumers := [{ started := false }] }).2.2.2.2.1
  simpa [startSystem] using h

/-- C9: the sentinel is recognized by object identity, not by value: the
consumer dispatch finishes the thread exactly when the dequeued object
is the poison-pill object itself, and an object that is value-equal (==)
to the pill but not identical to it is processed as a real item — the
step relation appends it to the destination and counts it. -/
theorem c9_sentinel_identity :
    (∀ x : PyObj, consumerDispatch x = .finish ↔ x.ident = pillObj.ident) ∧
    pyEq { ident := 5, val := 0 } pillObj = true ∧
    ({ ident := 5, val := 0 } : PyObj).ident ≠ pillObj.ident ∧
    consumerDispatch { ident := 5, val := 0 } = .process ∧
    SysStep
      { buf := { q := [], max := 1, unfinished := 1, closed := false },
        prods := [],
        conss := [{ phase := .holding { ident := 5, val := 0 },
                    consumed := 0 }],
        dest := [], oph := .waitProds, pillsSent := 0, skipped := 0 }
      { buf := { q := [], max := 1, unfinished := 1, closed := false },
        prods := [],
        conss := [{ phase := .acking, consumed := 1 }],
        dest := [{ ident := 5, val := 0 }], oph := .waitProds,
        pillsSent := 0, skipped := 0 } := by
  refine ⟨?_, rfl, by decide, rfl, ?_⟩
  · intro x
    constructor
    · intro h
      by_cases h1 : x.ident = noneObj.ident
      · simp [consumerDispatch, h1] at h
      · by_cases h2 : x.ident = pillObj.ident
        · exact h2
        · simp [consumerDispatch, h1, h2] at h
    · intro h
      have h1 : x.ident ≠ noneObj.ident := by
        simp [h, pillObj, noneObj]
      simp [consumerDispatch, h1, h, pillObj, noneObj]
  · exact SysStep.consProcess _ [] [] 0 { ident := 5, val := 0 }
      (by decide) (by decide)

/-- Witness for C9: the dispatch applied at the pill object itself. -/
theorem c9_sentinel_identity_witness :
    consumerDispatch pillObj = .finish :=
  (c9_sentinel_identity.1 pillObj).mpr rfl

/-- C10: a real None item is indistinguishable from a timeout.  Popping
a queued None object and timing out on an empty buffer return the same
value (None) to the consumer; the consumer dispatch treats that value as
a timeout (skip: no destination append, no items_consumed increment, no
task_done, only the buffer pop); the skip transition is exactly the step
that removes nothing further and bumps only the skipped history counter;
and in every reachable state the outstanding count is at least the
number of skipped None items, while no step ever decreases that number —
so once a None item is skipped the outstanding count stays permanently
positive. -/
theorem c10_none_item_conflation :
    (∀ (s : SharedBuffer PyObj) (rest : List PyObj), s.closed = false →
      s.q = noneObj :: rest →
        SharedBuffer.get s [] = .got noneObj { s with q := rest } ∧
        getReturnValue (SharedBuffer.get s []) = some noneObj) ∧
    (∀ t : SharedBuffer PyObj, t.closed = false → t.q = [] →
      SharedBuffer.get t [] = .timedOut ∧
      getReturnValue (SharedBuffer.get t []) = some noneObj) ∧
    consumerDispatch noneObj = .skip ∧
    (∀ (s : SysState) (pre post : List ConsState) (c : Nat),
      s.conss = pre ++ { phase := .holding noneObj, consumed := c } :: post →
        SysStep s { s with
          conss := pre ++ { phase := .idle, consumed := c } :: post,
          skipped := s.skipped + 1 }) ∧
    (∀ (cap : Nat) (sources : List (List PyObj)) (nc : Nat) (s : SysState),
      SysReachable cap sources nc s → s.skipped ≤ s.buf.unfinished) ∧
    (∀ (s s' : SysState), SysStep s s' → s.skipped ≤ s'.skipped) := by
  refine ⟨?_, ?_, rfl, ?_, ?_, ?_⟩
  · intro s rest hc hq
    have hcg : SharedBuffer.canGet s = true := by
      simp [SharedBuffer.canGet, hq]
    have hg : SharedBuffer.get s [] = .got noneObj { s with q := rest } := by
      unfold SharedBuffer.get
      simp [SharedBuffer.waitUntil, hcg, hq]
    exact ⟨hg, by rw [hg]; rfl⟩
  · intro t hc hq
    have hcg : SharedBuffer.canGet t = false := by
      simp [SharedBuffer.canGet, hq, hc]
    have hg : SharedBuffer.get t [] = .timedOut := by
      unfold SharedBuffer.get
      simp [SharedBuffer.waitUntil, hcg]
    exact ⟨hg, by rw [hg]; rfl⟩
  · intro s pre post c hc
    exact SysStep.consSkipNone s pre post c noneObj hc rfl
  · intro cap sources nc s hr
    have hb := (sysReachable_inv hr).bound
    omega
  · intro s s' h
    cases h <;> simp

/-- The concrete None run: one producer whose single source item is the
None object, one consumer, capacity 2.  The producer enqueues None, the
consumer pops it and skips it without task_done. -/
def nS0 : SysState := initSys 2 [[noneObj]] 1

def nS1 : SysState :=
  { buf := { q := [noneObj], max := 2, unfinished := 1, closed := false },
    prods := [{ remaining := [], produced := 1 }],
    conss := [{ phase := .idle, consumed := 0 }],
    dest := [], oph := .waitProds, pillsSent := 0, skipped := 0 }

def nS2 : SysState :=
  { nS1 with
    buf := { q := [], max := 2, unfinished := 1, closed := false },
    conss := [{ phase := .holding noneObj, consumed := 0 }] }

def nS3 : SysState :=
  { nS2 with
    conss := [{ phase := .idle, consumed := 0 }],
    skipped := 1 }

theorem nReach0 : SysReachable 2 [[noneObj]] 1 nS0 := .init

theorem nReach1 : SysReachable 2 [[noneObj]] 1 nS1 :=
  nReach0.step (SysStep.prodPut nS0 [] [] noneObj [] 0
    { q := [noneObj], max := 2, unfinished := 1, closed := false }
    (by decide) (by decide))

theorem nReach2 : SysReachable 2 [[noneObj]] 1 nS2 :=
  nReach1.step (SysStep.consPop nS1 [] [] 0 noneObj
    { q := [], max := 2, unfinished := 1, closed := false }
    (by decide) (by decide))

theorem nReach3 : SysReachable 2 [[noneObj]] 1 nS3 :=
  nReach2.step (SysStep.consSkipNone nS2 [] [] 0 noneObj
    (by decide) (by decide))

/-- Witness for C10: the popped None and the timeout return the same
value, and in the concrete None run above the skipped item keeps the
outstanding count at least 1 (here the final state has skipped = 1 and
outstanding = 1). -/
theorem c10_none_item_conflation_witness :
    getReturnValue (SharedBuffer.get
      ({ q := [noneObj], max := 2, unfinished := 1, closed := false } :
        SharedBuffer PyObj) []) = some noneObj ∧
    getReturnValue (SharedBuffer.get
      ({ q := [], max := 2, unfinished := 1, closed := false } :
        SharedBuffer PyObj) []) = some noneObj ∧
    nS3.skipped ≤ nS3.buf.unfinished :=
  ⟨(c10_none_item_conflation.1
      { q := [noneObj], max := 2, unfinished := 1, closed := false }
      [] rfl rfl).2,
   (c10_none_item_conflation.2.1
      { q := [], max := 2, unfinished := 1, closed := false } rfl rfl).2,
   c10_none_item_conflation.2.2.2.2.1 2 [[noneObj]] 1 nS3 nReach3⟩
